import Mathlib

/-!
Shallow embedding of `src/taupy/VelocityModel.py` (TauPy), the velocity-model
core of a seismic travel-time code.  Depths, velocities and densities are
embedded as rationals (the Python code works on floats, but every claim under
study is about comparisons and exact equalities of values produced by field
operations, which ℚ models faithfully); the earth-flattening transform, which
applies a logarithm, is embedded over ℝ.  Raising an exception is modelled as
`Option`/`Except` failure.
-/

namespace TauPy

/-- Modelled from the spec: the class `VelocityLayer` is referenced throughout
`VelocityModel.py` but its definition is not part of the sources under study.
Per the spec it is a record of a depth interval `[topDepth, botDepth]` with
endpoint values for P velocity, S velocity, density and the Qp/Qs attenuation
factors (defaults 1000 and 2000 when absent). -/
structure VelocityLayer where
  layerNumber : Nat
  topDepth : ℚ
  botDepth : ℚ
  topPVelocity : ℚ
  botPVelocity : ℚ
  topSVelocity : ℚ
  botSVelocity : ℚ
  topDensity : ℚ := 0
  botDensity : ℚ := 0
  topQp : ℚ := 1000
  botQp : ℚ := 1000
  topQs : ℚ := 2000
  botQs : ℚ := 2000
deriving DecidableEq

/-- Embeds `VelocityModel.__init__` (`VelocityModel.py` lines 8-55): global metadata
plus the ordered layer list.  Field defaults are the constructor defaults. -/
structure VelocityModel where
  modelName : String := "unknown"
  radiusOfEarth : ℚ := 6371
  mohoDepth : ℚ := 35
  cmbDepth : ℚ := 2889
  iocbDepth : ℚ := 5153.9
  minRadius : ℚ := 0
  maxRadius : ℚ := 6371
  isSpherical : Bool := true
  layers : List VelocityLayer := []
deriving DecidableEq

/-- Modelled from the spec: `getVelocityLayer` is called by `VelocityModel.py`
but not defined in the sources under study; it is the index lookup into
`layers`, raising (here: `none`) when the index is out of range. -/
def VelocityModel.getVelocityLayer (m : VelocityModel) (layerNumber : Nat) :
    Option VelocityLayer :=
  m.layers.get? layerNumber

/-- Embeds `getNumLayers`, the layer count (`__len__`, line 57-58). -/
def VelocityModel.getNumLayers (m : VelocityModel) : Nat :=
  m.layers.length

/-- The consecutive pairs `(layers[i], layers[i+1])` that the loops over
`range(getNumLayers() - 1)` in `getDisconDepths` and `fixDisconDepths` walk. -/
def layerPairs (ls : List VelocityLayer) : List (VelocityLayer × VelocityLayer) :=
  ls.zip ls.tail

/-- The velocity-jump test of `getDisconDepths` line 69-70 (also reused at
`fixDisconDepths` line 625): P or S velocity differs across the boundary. -/
def isVelocityDiscon (above below : VelocityLayer) : Bool :=
  above.botPVelocity != below.topPVelocity || above.botSVelocity != below.topSVelocity

/-- The internal-boundary depths collected by the loop of `getDisconDepths`
(lines 67-72): the bottom depth of each upper layer at which P or S velocity
jumps. -/
def disconMids (ls : List VelocityLayer) : List ℚ :=
  (layerPairs ls).filterMap
    (fun p => if isVelocityDiscon p.1 p.2 then some p.1.botDepth else none)

/-- Embeds `getDisconDepths` (lines 60-75): `layers[0].topDepth`, then the internal
jump depths, then `layers[-1].botDepth`.  Indexing `layers[0]`/`layers[-1]`
raises on an empty model, modelled as `none`. -/
def VelocityModel.getDisconDepths (m : VelocityModel) : Option (List ℚ) :=
  match m.layers with
  | [] => none
  | l0 :: rest =>
    some (l0.topDepth :: (disconMids (l0 :: rest) ++ [((l0 :: rest).getLastD l0).botDepth]))

/-- The scan of `layerNumberAbove` (lines 84-86): first index `i` (counting
from `i0`) whose layer satisfies `topDepth < depth <= botDepth`. -/
def layerNumberAboveAux (depth : ℚ) (i0 : Nat) : List VelocityLayer → Option Nat
  | [] => none
  | l :: rest =>
    if l.topDepth < depth ∧ depth ≤ l.botDepth then some i0
    else layerNumberAboveAux depth (i0 + 1) rest

/-- Embeds `layerNumberAbove` (lines 77-87); the `TauPException` on exhaustion is
modelled as `none`. -/
def VelocityModel.layerNumberAbove (m : VelocityModel) (depth : ℚ) : Option Nat :=
  layerNumberAboveAux depth 0 m.layers

/-- The scan of `layerNumberBelow` (lines 96-98): first index whose layer
satisfies `topDepth <= depth < botDepth`. -/
def layerNumberBelowAux (depth : ℚ) (i0 : Nat) : List VelocityLayer → Option Nat
  | [] => none
  | l :: rest =>
    if l.topDepth ≤ depth ∧ depth < l.botDepth then some i0
    else layerNumberBelowAux depth (i0 + 1) rest

/-- Embeds `layerNumberBelow` (lines 89-99). -/
def VelocityModel.layerNumberBelow (m : VelocityModel) (depth : ℚ) : Option Nat :=
  layerNumberBelowAux depth 0 m.layers

/-- Verification-side predicate (not from the source): the layer list is a
contiguous stack starting at depth `t`, each layer of positive thickness.
This is the "layers cover `[t, maxDepth]`" hypothesis of the claims and the
model invariant the spec states in §3. -/
def chainedFrom (t : ℚ) : List VelocityLayer → Bool
  | [] => true
  | l :: rest =>
    l.topDepth == t && decide (l.topDepth < l.botDepth) && chainedFrom l.botDepth rest

/-- Verification-side: the bottom depth of the last layer of a stack starting
at `t` (`t` itself for the empty stack) — the maximum depth of the model. -/
def stackBot (t : ℚ) : List VelocityLayer → ℚ
  | [] => t
  | l :: rest => stackBot l.botDepth rest

/-- The per-layer loop of `validate` (lines 342-367), carrying the previous
layer's bottom depth (initialised to `layers[0].topDepth` by the synthetic
zero-thickness `prevVelocityLayer` of line 340): gap check, zero-thickness
check, then the four velocity checks, each returning `False` on failure. -/
def validateLayers (prevBotDepth : ℚ) : List VelocityLayer → Bool
  | [] => true
  | l :: rest =>
    if prevBotDepth ≠ l.topDepth then false
    else if l.botDepth = l.topDepth then false
    else if l.topPVelocity ≤ 0 ∨ l.botPVelocity ≤ 0 then false
    else if l.topSVelocity < 0 ∨ l.botSVelocity < 0 then false
    else if (l.topPVelocity ≠ 0 ∧ l.botPVelocity = 0) ∨
            (l.topPVelocity = 0 ∧ l.botPVelocity ≠ 0) then false
    else if (l.topSVelocity ≠ 0 ∧ l.botSVelocity = 0) ∨
            (l.topSVelocity = 0 ∧ l.botSVelocity ≠ 0) then false
    else validateLayers l.botDepth rest

/-- Embeds `validate` (lines 308-368): the global radius/boundary checks in source
order, then the layer loop.  `getVelocityLayer(0)` on an empty layer list
raises (modelled as `none`); every other path returns a boolean. -/
def VelocityModel.validate (m : VelocityModel) : Option Bool :=
  if m.radiusOfEarth ≤ 0 then some false
  else if m.mohoDepth < 0 then some false
  else if m.cmbDepth < m.mohoDepth then some false
  else if m.cmbDepth ≤ 0 then some false
  else if m.iocbDepth < m.cmbDepth then some false
  else if m.iocbDepth ≤ 0 then some false
  else if m.minRadius < 0 then some false
  else if m.maxRadius ≤ 0 then some false
  else if m.maxRadius ≤ m.minRadius then some false
  else
    match m.layers with
    | [] => none
    | l0 :: rest => some (validateLayers l0.topDepth (l0 :: rest))

/-- The running state of the `fixDisconDepths` scan (lines 615-620): the three
shrinking search windows and the three candidate depths. -/
structure DisconScanState where
  mohoMin : ℚ
  cmbMin : ℚ
  iocbMin : ℚ
  tempMohoDepth : ℚ
  tempCmbDepth : ℚ
  tempIocbDepth : ℚ
deriving DecidableEq

/-- One iteration of the `fixDisconDepths` loop (lines 622-635) on the pair
`(aboveLayer, belowLayer)`: when the boundary is a velocity discontinuity,
each of the moho/cmb/iocb candidates is updated when the boundary lies closer
to the corresponding stored depth than the current window; the iocb update
additionally requires S velocity zero above and positive below. -/
def fixDisconStep (mohoDepth cmbDepth iocbDepth : ℚ) (s : DisconScanState)
    (p : VelocityLayer × VelocityLayer) : DisconScanState :=
  let aboveLayer := p.1
  let belowLayer := p.2
  if aboveLayer.botPVelocity ≠ belowLayer.topPVelocity ∨
     aboveLayer.botSVelocity ≠ belowLayer.topSVelocity then
    let s1 :=
      if |mohoDepth - aboveLayer.botDepth| < s.mohoMin then
        { s with tempMohoDepth := aboveLayer.botDepth,
                 mohoMin := |mohoDepth - aboveLayer.botDepth| }
      else s
    let s2 :=
      if |cmbDepth - aboveLayer.botDepth| < s1.cmbMin then
        { s1 with tempCmbDepth := aboveLayer.botDepth,
                  cmbMin := |cmbDepth - aboveLayer.botDepth| }
      else s1
    if aboveLayer.botSVelocity = 0 ∧ belowLayer.topSVelocity > 0 ∧
       |iocbDepth - aboveLayer.botDepth| < s2.iocbMin then
      { s2 with tempIocbDepth := aboveLayer.botDepth,
                iocbMin := |iocbDepth - aboveLayer.botDepth| }
    else s2
  else s

/-- The initial scan state of `fixDisconDepths` (lines 615-620). -/
def fixDisconInit (m : VelocityModel) : DisconScanState :=
  { mohoMin := 65
    cmbMin := m.radiusOfEarth
    iocbMin := m.radiusOfEarth - 100
    tempMohoDepth := 0
    tempCmbDepth := m.radiusOfEarth
    tempIocbDepth := m.radiusOfEarth }

/-- The whole scan loop of `fixDisconDepths` over the adjacent layer pairs. -/
def fixDisconScan (m : VelocityModel) : DisconScanState :=
  (layerPairs m.layers).foldl (fixDisconStep m.mohoDepth m.cmbDepth m.iocbDepth)
    (fixDisconInit m)

/-- Embeds `fixDisconDepths` (lines 610-641).  The Python method mutates
`mohoDepth`/`cmbDepth`/`iocbDepth` in place and returns `changeMade`; here the
updated model is returned together with that flag.  Note the source computes
`changeMade` against `tempIocbDepth` (line 636) but then stores
`radiusOfEarth` instead of `tempIocbDepth` when the cmb and iocb candidates
coincide (line 640). -/
def VelocityModel.fixDisconDepths (m : VelocityModel) : VelocityModel × Bool :=
  let s := fixDisconScan m
  let changeMade : Bool :=
    decide (m.mohoDepth ≠ s.tempMohoDepth ∨ m.cmbDepth ≠ s.tempCmbDepth ∨
            m.iocbDepth ≠ s.tempIocbDepth)
  ({ m with
      mohoDepth := s.tempMohoDepth
      cmbDepth := s.tempCmbDepth
      iocbDepth := if s.tempCmbDepth ≠ s.tempIocbDepth then s.tempIocbDepth
                   else m.radiusOfEarth },
   changeMade)

/-- The layer record built by `earthFlattenTransform` (line 652): the 7-argument
`VelocityLayer` construction, real-valued because of the logarithm. -/
structure FlatLayer where
  layerNumber : Nat
  topDepth : ℝ
  botDepth : ℝ
  topPVelocity : ℝ
  botPVelocity : ℝ
  topSVelocity : ℝ
  botSVelocity : ℝ

/-- One layer of `earthFlattenTransform` (line 652): depths are mapped through
`radiusOfEarth * log(depth / radiusOfEarth)` and each velocity `v` at stored
depth `d` becomes `radiusOfEarth * v / d` — the stored depth itself, not the
radial distance `radiusOfEarth - d`, is used throughout. -/
noncomputable def flattenLayer (radiusOfEarth : ℝ) (i : Nat) (oldLayer : VelocityLayer) :
    FlatLayer :=
  { layerNumber := i
    topDepth := radiusOfEarth * Real.log (oldLayer.topDepth / radiusOfEarth)
    botDepth := radiusOfEarth * Real.log (oldLayer.botDepth / radiusOfEarth)
    topPVelocity := radiusOfEarth * oldLayer.topPVelocity / oldLayer.topDepth
    botPVelocity := radiusOfEarth * oldLayer.botPVelocity / oldLayer.botDepth
    topSVelocity := radiusOfEarth * oldLayer.topSVelocity / oldLayer.topDepth
    botSVelocity := radiusOfEarth * oldLayer.botSVelocity / oldLayer.botDepth }

/-- The loop of `earthFlattenTransform` (lines 649-654), indexing layers from
`i0`. -/
noncomputable def flattenLayers (radiusOfEarth : ℝ) (i0 : Nat) :
    List VelocityLayer → List FlatLayer
  | [] => []
  | l :: rest => flattenLayer radiusOfEarth i0 l :: flattenLayers radiusOfEarth (i0 + 1) rest

/-- The model returned by `earthFlattenTransform` (line 655): same metadata,
`spherical = False`, flattened layers. -/
structure FlatVelocityModel where
  modelName : String
  radiusOfEarth : ℚ
  mohoDepth : ℚ
  cmbDepth : ℚ
  iocbDepth : ℚ
  minRadius : ℚ
  maxRadius : ℚ
  isSpherical : Bool
  layers : List FlatLayer

/-- Embeds `earthFlattenTransform` (lines 643-655). -/
noncomputable def VelocityModel.earthFlattenTransform (m : VelocityModel) :
    FlatVelocityModel :=
  { modelName := m.modelName
    radiusOfEarth := m.radiusOfEarth
    mohoDepth := m.mohoDepth
    cmbDepth := m.cmbDepth
    iocbDepth := m.iocbDepth
    minRadius := m.minRadius
    maxRadius := m.maxRadius
    isSpherical := false
    layers := flattenLayers m.radiusOfEarth 0 m.layers }

/-- Modelled from the spec: `cls.DEFAULT_MOHO` is referenced by the parsers
(lines 502, 559) but not defined in the sources under study; per the spec and
the constructor default it is 35 km. -/
def DEFAULT_MOHO : ℚ := 35

/-- Modelled from the spec: `cls.DEFAULT_CMB`, 2889 km (see `DEFAULT_MOHO`). -/
def DEFAULT_CMB : ℚ := 2889

/-- Modelled from the spec: `cls.DEFAULT_IOCB`, 5153.9 km (see `DEFAULT_MOHO`). -/
def DEFAULT_IOCB : ℚ := 5153.9

/-- The `VelocityModelException` raised by the parsers — the spec's
malformed-model-file error kind.  `sGreaterThanP` is the "S velocity greater
than the P velocity" error; `expectedEOL` the "Should have found an EOL but
didn't" error. -/
inductive VelocityModelException where
  | sGreaterThanP (sVel depth pVel : ℚ)
  | expectedEOL (layerNumber : Nat)
deriving DecidableEq

/-- One data line of a `.tvel` file as the `StreamTokenizer` loop of
`readTVelFile_0` consumes it: the three mandatory numbers `depth Pvel Svel`
and whatever further numbers stand before the end of the line (the first may
be a density; a second one triggers the expected-EOL error).  Comment and
header handling is token-level and happens before this row view. -/
structure TVelRow where
  depth : ℚ
  pVel : ℚ
  sVel : ℚ
  extras : List ℚ
deriving DecidableEq

/-- Reading the optional trailing density of a row (`.tvel` lines 463-470,
482-496): no extra number keeps `dflt`, one extra number is the density, more
than one means the expected EOL is missing. -/
def rowDensity (dflt : ℚ) (layerNumber : Nat) : List ℚ →
    Except VelocityModelException ℚ
  | [] => .ok dflt
  | [d] => .ok d
  | _ :: _ :: _ => .error (.expectedEOL layerNumber)

/-- The layer-building loop of `readTVelFile_0` (lines 474-499), carrying the
previous row's values: each row is checked for `S > P`, a layer from the
previous row to it is built, and zero-thickness layers are skipped.  Returns
the layers and the final depth read (which becomes the model radius). -/
def readTVelRowsAux (myLayerNumber : Nat) (topDepth topPVel topSVel topDensity : ℚ)
    (layers : List VelocityLayer) :
    List TVelRow → Except VelocityModelException (List VelocityLayer × ℚ)
  | [] => .ok (layers, topDepth)
  | r :: rest =>
    if r.sVel > r.pVel then .error (.sGreaterThanP r.sVel r.depth r.pVel)
    else
      match rowDensity topDensity myLayerNumber r.extras with
      | .error e => .error e
      | .ok botDensity =>
        let tempLayer : VelocityLayer :=
          { layerNumber := myLayerNumber, topDepth := topDepth, botDepth := r.depth,
            topPVelocity := topPVel, botPVelocity := r.pVel,
            topSVelocity := topSVel, botSVelocity := r.sVel,
            topDensity := topDensity, botDensity := botDensity }
        if tempLayer.topDepth ≠ tempLayer.botDepth then
          readTVelRowsAux (myLayerNumber + 1) r.depth r.pVel r.sVel botDensity
            (layers ++ [tempLayer]) rest
        else
          readTVelRowsAux myLayerNumber r.depth r.pVel r.sVel botDensity layers rest

/-- Embeds `readTVelFile_0` (lines 431-502) at row granularity: the two header lines
are already skipped by the tokenizer setup, the first row seeds the running
values (density defaulting to 5571.0), the remaining rows build layers, and
the final depth read becomes `radiusOfEarth` and `maxRadius`.  An input with
no data rows is a tokenizer error (the EOL expected after the first row's
values is never found). -/
def readTVelFile_0 (rows : List TVelRow) (modelName : String) :
    Except VelocityModelException VelocityModel :=
  match rows with
  | [] => .error (.expectedEOL 0)
  | r0 :: rest =>
    if r0.sVel > r0.pVel then .error (.sGreaterThanP r0.sVel r0.depth r0.pVel)
    else
      match rowDensity 5571.0 0 r0.extras with
      | .error e => .error e
      | .ok topDensity =>
        match readTVelRowsAux 0 r0.depth r0.pVel r0.sVel topDensity [] rest with
        | .error e => .error e
        | .ok (layers, finalDepth) =>
          .ok { modelName := modelName
                radiusOfEarth := finalDepth
                mohoDepth := DEFAULT_MOHO
                cmbDepth := DEFAULT_CMB
                iocbDepth := DEFAULT_IOCB
                minRadius := 0
                maxRadius := finalDepth
                isSpherical := true
                layers := layers }

/-- One line of a `.nd` file as `readNDFile_0` consumes it: either a row of
numbers (`depth Pvel Svel` plus up to three trailing numbers: density, Qp, Qs;
a fourth triggers the expected-EOL error) or a line led by a word token (a
named-discontinuity marker; the rest of such a line is skipped). -/
inductive NDLine where
  | numbers (depth pVel sVel : ℚ) (extras : List ℚ)
  | word (sval : String)
deriving DecidableEq

/-- The mutable row state of `readNDFile_0`: the layer counter, the previous
row's values, the `bot*` variables (which, unlike in the `.tvel` parser, are
distinct mutable cells initialised once at lines 534-536 and only overwritten
when a row carries the optional field), the three named-discontinuity depths
and the accumulated layers. -/
structure NDState where
  myLayerNumber : Nat
  topDepth : ℚ
  topPVel : ℚ
  topSVel : ℚ
  topDensity : ℚ
  topQp : ℚ
  topQs : ℚ
  botDensity : ℚ
  botQp : ℚ
  botQs : ℚ
  mohoDepth : ℚ
  cmbDepth : ℚ
  iocbDepth : ℚ
  layers : List VelocityLayer
deriving DecidableEq

/-- Reading the optional `density [Qp [Qs]]` tail of a `.nd` row (lines
545-554 and 582-591): each present number overwrites the corresponding
variable, absent ones keep their current values; a fourth number means the
expected EOL is missing. -/
def ndExtras (density qp qs : ℚ) (layerNumber : Nat) : List ℚ →
    Except VelocityModelException (ℚ × ℚ × ℚ)
  | [] => .ok (density, qp, qs)
  | [d] => .ok (d, qp, qs)
  | [d, p] => .ok (d, p, qs)
  | [d, p, q] => .ok (d, p, q)
  | _ => .error (.expectedEOL layerNumber)

/-- The line loop of `readNDFile_0` (lines 563-605): a word line records the
current top depth as moho/cmb/iocb when it names that boundary (lines
564-574); a number line is checked for `S > P`, its optional fields are read
into the `bot*` cells, a layer is built and zero-thickness layers skipped. -/
def readNDLinesAux (st : NDState) :
    List NDLine → Except VelocityModelException NDState
  | [] => .ok st
  | .word sval :: rest =>
    let lw := sval.toLower
    let st :=
      if lw = "mantle" ∨ lw = "moho" then { st with mohoDepth := st.topDepth } else st
    let st :=
      if lw = "outer-core" ∨ lw = "cmb" then { st with cmbDepth := st.topDepth } else st
    let st :=
      if lw = "inner-core" ∨ lw = "icocb" then { st with iocbDepth := st.topDepth } else st
    readNDLinesAux st rest
  | .numbers depth pVel sVel extras :: rest =>
    if sVel > pVel then .error (.sGreaterThanP sVel depth pVel)
    else
      match ndExtras st.botDensity st.botQp st.botQs st.myLayerNumber extras with
      | .error e => .error e
      | .ok (botDensity, botQp, botQs) =>
        let tempLayer : VelocityLayer :=
          { layerNumber := st.myLayerNumber, topDepth := st.topDepth, botDepth := depth,
            topPVelocity := st.topPVel, botPVelocity := pVel,
            topSVelocity := st.topSVel, botSVelocity := sVel,
            topDensity := st.topDensity, botDensity := botDensity,
            topQp := st.topQp, botQp := botQp, topQs := st.topQs, botQs := botQs }
        let st' : NDState :=
          { st with
              topDepth := depth, topPVel := pVel, topSVel := sVel,
              topDensity := botDensity, topQp := botQp, topQs := botQs,
              botDensity := botDensity, botQp := botQp, botQs := botQs }
        if tempLayer.topDepth ≠ tempLayer.botDepth then
          readNDLinesAux
            { st' with layers := st'.layers ++ [tempLayer],
                       myLayerNumber := st'.myLayerNumber + 1 } rest
        else readNDLinesAux st' rest

/-- Embeds `readNDFile_0` (lines 513-608) at line granularity: the first line must be
a data row seeding the running values (initial defaults density 2.6, Qp 1000,
Qs 2000; its optional fields overwrite only the `top*` cells, the separately
initialised `bot*` cells keep the defaults), the remaining lines run through
`readNDLinesAux`, and the final depth read becomes `radiusOfEarth` and
`maxRadius`.  An input that does not start with a data row is a tokenizer
error. -/
def readNDFile_0 (lines : List NDLine) (modelName : String) :
    Except VelocityModelException VelocityModel :=
  match lines with
  | .numbers depth pVel sVel extras :: rest =>
    if sVel > pVel then .error (.sGreaterThanP sVel depth pVel)
    else
      match ndExtras 2.6 1000 2000 0 extras with
      | .error e => .error e
      | .ok (topDensity, topQp, topQs) =>
        match readNDLinesAux
            { myLayerNumber := 0, topDepth := depth, topPVel := pVel, topSVel := sVel,
              topDensity := topDensity, topQp := topQp, topQs := topQs,
              botDensity := 2.6, botQp := 1000, botQs := 2000,
              mohoDepth := DEFAULT_MOHO, cmbDepth := DEFAULT_CMB,
              iocbDepth := DEFAULT_IOCB, layers := [] } rest with
        | .error e => .error e
        | .ok st =>
          .ok { modelName := modelName
                radiusOfEarth := st.topDepth
                mohoDepth := st.mohoDepth
                cmbDepth := st.cmbDepth
                iocbDepth := st.iocbDepth
                minRadius := 0
                maxRadius := st.topDepth
                isSpherical := true
                layers := st.layers }
  | _ => .error (.expectedEOL 0)

/-! ### Facts about contiguous layer stacks and the lookup scans -/

theorem chainedFrom_cons {t : ℚ} {l : VelocityLayer} {rest : List VelocityLayer}
    (h : chainedFrom t (l :: rest) = true) :
    l.topDepth = t ∧ l.topDepth < l.botDepth ∧ chainedFrom l.botDepth rest = true := by
  simp only [chainedFrom, Bool.and_eq_true, beq_iff_eq, decide_eq_true_eq] at h
  exact ⟨h.1.1, h.1.2, h.2⟩

theorem stackBot_ge {t : ℚ} {ls : List VelocityLayer} (h : chainedFrom t ls = true) :
    t ≤ stackBot t ls := by
  induction ls generalizing t with
  | nil => simp [stackBot]
  | cons l rest ih =>
    obtain ⟨h1, h2, h3⟩ := chainedFrom_cons h
    show t ≤ stackBot l.botDepth rest
    calc t = l.topDepth := h1.symm
      _ ≤ l.botDepth := le_of_lt h2
      _ ≤ stackBot l.botDepth rest := ih h3

theorem chained_get_top_ge {t : ℚ} {ls : List VelocityLayer} {k : Nat} {l' : VelocityLayer}
    (h : chainedFrom t ls = true) (hk : ls.get? k = some l') : t ≤ l'.topDepth := by
  induction ls generalizing t k with
  | nil => simp at hk
  | cons l rest ih =>
    obtain ⟨h1, h2, h3⟩ := chainedFrom_cons h
    cases k with
    | zero =>
      simp only [List.get?] at hk
      cases hk
      exact le_of_eq h1.symm
    | succ k' =>
      simp only [List.get?] at hk
      calc t = l.topDepth := h1.symm
        _ ≤ l.botDepth := le_of_lt h2
        _ ≤ l'.topDepth := ih h3 hk

theorem chained_get_thick {t : ℚ} {ls : List VelocityLayer} {k : Nat} {l' : VelocityLayer}
    (h : chainedFrom t ls = true) (hk : ls.get? k = some l') :
    l'.topDepth < l'.botDepth := by
  induction ls generalizing t k with
  | nil => simp at hk
  | cons l rest ih =>
    obtain ⟨_, h2, h3⟩ := chainedFrom_cons h
    cases k with
    | zero =>
      simp only [List.get?] at hk
      cases hk
      exact h2
    | succ k' =>
      simp only [List.get?] at hk
      exact ih h3 hk

theorem chained_adj_top {t : ℚ} {ls : List VelocityLayer} {i : Nat} {a b : VelocityLayer}
    (h : chainedFrom t ls = true) (ha : ls.get? i = some a)
    (hb : ls.get? (i + 1) = some b) : b.topDepth = a.botDepth := by
  induction ls generalizing t i with
  | nil => simp at ha
  | cons l rest ih =>
    obtain ⟨_, _, h3⟩ := chainedFrom_cons h
    cases i with
    | zero =>
      simp only [List.get?] at ha hb
      cases ha
      cases rest with
      | nil => simp at hb
      | cons b' rest' =>
        simp only [List.get?] at hb
        cases hb
        exact (chainedFrom_cons h3).1
    | succ i' =>
      simp only [List.get?] at ha hb
      exact ih h3 ha hb

theorem layerNumberAboveAux_succ (depth : ℚ) (i0 : Nat) (ls : List VelocityLayer) :
    layerNumberAboveAux depth (i0 + 1) ls =
      (layerNumberAboveAux depth i0 ls).map (· + 1) := by
  induction ls generalizing i0 with
  | nil => rfl
  | cons l rest ih =>
    simp only [layerNumberAboveAux]
    by_cases hp : l.topDepth < depth ∧ depth ≤ l.botDepth
    · rw [if_pos hp, if_pos hp]
      rfl
    · rw [if_neg hp, if_neg hp, ih]

theorem layerNumberBelowAux_succ (depth : ℚ) (i0 : Nat) (ls : List VelocityLayer) :
    layerNumberBelowAux depth (i0 + 1) ls =
      (layerNumberBelowAux depth i0 ls).map (· + 1) := by
  induction ls generalizing i0 with
  | nil => rfl
  | cons l rest ih =>
    simp only [layerNumberBelowAux]
    by_cases hp : l.topDepth ≤ depth ∧ depth < l.botDepth
    · rw [if_pos hp, if_pos hp]
      rfl
    · rw [if_neg hp, if_neg hp, ih]

theorem layerNumberAboveAux_some {depth : ℚ} {ls : List VelocityLayer} {j : Nat}
    (h : layerNumberAboveAux depth 0 ls = some j) :
    ∃ l, ls.get? j = some l ∧ l.topDepth < depth ∧ depth ≤ l.botDepth := by
  induction ls generalizing j with
  | nil => simp [layerNumberAboveAux] at h
  | cons l rest ih =>
    rw [layerNumberAboveAux] at h
    by_cases hp : l.topDepth < depth ∧ depth ≤ l.botDepth
    · rw [if_pos hp] at h
      cases h
      exact ⟨l, rfl, hp⟩
    · rw [if_neg hp, layerNumberAboveAux_succ] at h
      cases hj : layerNumberAboveAux depth 0 rest with
      | none => rw [hj] at h; simp at h
      | some j' =>
        rw [hj] at h
        simp only [Option.map_some'] at h
        cases h
        obtain ⟨l', hl', hcond⟩ := ih hj
        exact ⟨l', hl', hcond⟩

theorem layerNumberBelowAux_some {depth : ℚ} {ls : List VelocityLayer} {j : Nat}
    (h : layerNumberBelowAux depth 0 ls = some j) :
    ∃ l, ls.get? j = some l ∧ l.topDepth ≤ depth ∧ depth < l.botDepth := by
  induction ls generalizing j with
  | nil => simp [layerNumberBelowAux] at h
  | cons l rest ih =>
    rw [layerNumberBelowAux] at h
    by_cases hp : l.topDepth ≤ depth ∧ depth < l.botDepth
    · rw [if_pos hp] at h
      cases h
      exact ⟨l, rfl, hp⟩
    · rw [if_neg hp, layerNumberBelowAux_succ] at h
      cases hj : layerNumberBelowAux depth 0 rest with
      | none => rw [hj] at h; simp at h
      | some j' =>
        rw [hj] at h
        simp only [Option.map_some'] at h
        cases h
        obtain ⟨l', hl', hcond⟩ := ih hj
        exact ⟨l', hl', hcond⟩

theorem layerNumberAboveAux_none_iff {t : ℚ} {ls : List VelocityLayer}
    (h : chainedFrom t ls = true) (depth : ℚ) :
    layerNumberAboveAux depth 0 ls = none ↔ depth ≤ t ∨ stackBot t ls < depth := by
  induction ls generalizing t with
  | nil =>
    simp only [layerNumberAboveAux, stackBot, true_iff]
    exact le_or_lt depth t
  | cons l rest ih =>
    obtain ⟨h1, h2, h3⟩ := chainedFrom_cons h
    have hsb : l.botDepth ≤ stackBot l.botDepth rest := stackBot_ge h3
    rw [layerNumberAboveAux]
    show _ ↔ depth ≤ t ∨ stackBot l.botDepth rest < depth
    by_cases hp : l.topDepth < depth ∧ depth ≤ l.botDepth
    · rw [if_pos hp]
      apply iff_of_false (by simp)
      push_neg
      constructor
      · rw [← h1]; exact hp.1
      · linarith [hp.2]
    · rw [if_neg hp, layerNumberAboveAux_succ, Option.map_eq_none', ih h3]
      rw [not_and_or, not_lt, not_le, h1] at hp
      constructor
      · rintro (hle | hlt)
        · rcases hp with hle' | hlt'
          · exact Or.inl hle'
          · exact Or.inl (by linarith)
        · exact Or.inr hlt
      · rintro (hle | hlt)
        · exact Or.inl (by linarith)
        · exact Or.inr (by linarith)

theorem layerNumberBelowAux_none_iff {t : ℚ} {ls : List VelocityLayer}
    (h : chainedFrom t ls = true) (depth : ℚ) :
    layerNumberBelowAux depth 0 ls = none ↔ depth < t ∨ stackBot t ls ≤ depth := by
  induction ls generalizing t with
  | nil =>
    simp only [layerNumberBelowAux, stackBot, true_iff]
    exact lt_or_le depth t
  | cons l rest ih =>
    obtain ⟨h1, h2, h3⟩ := chainedFrom_cons h
    have hsb : l.botDepth ≤ stackBot l.botDepth rest := stackBot_ge h3
    rw [layerNumberBelowAux]
    show _ ↔ depth < t ∨ stackBot l.botDepth rest ≤ depth
    by_cases hp : l.topDepth ≤ depth ∧ depth < l.botDepth
    · rw [if_pos hp]
      apply iff_of_false (by simp)
      push_neg
      constructor
      · rw [← h1]; exact hp.1
      · linarith [hp.2]
    · rw [if_neg hp, layerNumberBelowAux_succ, Option.map_eq_none', ih h3]
      rw [not_and_or, not_le, not_lt, h1] at hp
      constructor
      · rintro (hlt | hle)
        · rcases hp with hlt' | hle'
          · exact Or.inl hlt'
          · exact Or.inl (by linarith)
        · exact Or.inr hle
      · rintro (hlt | hle)
        · exact Or.inl (by linarith)
        · exact Or.inr (by linarith)

theorem layerNumberAboveAux_at {t depth : ℚ} {ls : List VelocityLayer} {k : Nat}
    {l' : VelocityLayer} (hch : chainedFrom t ls = true) (hk : ls.get? k = some l')
    (h1 : l'.topDepth < depth) (h2 : depth ≤ l'.botDepth) :
    layerNumberAboveAux depth 0 ls = some k := by
  induction ls generalizing t k with
  | nil => simp at hk
  | cons l rest ih =>
    obtain ⟨hc1, hc2, hc3⟩ := chainedFrom_cons hch
    cases k with
    | zero =>
      simp only [List.get?] at hk
      cases hk
      rw [layerNumberAboveAux, if_pos ⟨h1, h2⟩]
    | succ k' =>
      simp only [List.get?] at hk
      have htop : l.botDepth ≤ l'.topDepth := chained_get_top_ge hc3 hk
      have hnp : ¬(l.topDepth < depth ∧ depth ≤ l.botDepth) := by
        rintro ⟨_, hle⟩
        linarith
      rw [layerNumberAboveAux, if_neg hnp, layerNumberAboveAux_succ, ih hc3 hk]
      rfl

theorem layerNumberBelowAux_at {t depth : ℚ} {ls : List VelocityLayer} {k : Nat}
    {l' : VelocityLayer} (hch : chainedFrom t ls = true) (hk : ls.get? k = some l')
    (h1 : l'.topDepth ≤ depth) (h2 : depth < l'.botDepth) :
    layerNumberBelowAux depth 0 ls = some k := by
  induction ls generalizing t k with
  | nil => simp at hk
  | cons l rest ih =>
    obtain ⟨hc1, hc2, hc3⟩ := chainedFrom_cons hch
    cases k with
    | zero =>
      simp only [List.get?] at hk
      cases hk
      rw [layerNumberBelowAux, if_pos ⟨h1, h2⟩]
    | succ k' =>
      simp only [List.get?] at hk
      have htop : l.botDepth ≤ l'.topDepth := chained_get_top_ge hc3 hk
      have hnp : ¬(l.topDepth ≤ depth ∧ depth < l.botDepth) := by
        rintro ⟨_, hlt⟩
        linarith
      rw [layerNumberBelowAux, if_neg hnp, layerNumberBelowAux_succ, ih hc3 hk]
      rfl

/-! ### Concrete example models -/

/-- Upper layer `[0, 5]` of the concrete two-layer model. -/
def exLayer0 : VelocityLayer :=
  { layerNumber := 0, topDepth := 0, botDepth := 5,
    topPVelocity := 8, botPVelocity := 8, topSVelocity := 4, botSVelocity := 4 }

/-- Lower layer `[5, 10]` of the concrete two-layer model; its velocities jump
across the internal boundary at depth 5. -/
def exLayer1 : VelocityLayer :=
  { layerNumber := 1, topDepth := 5, botDepth := 10,
    topPVelocity := 9, botPVelocity := 9, topSVelocity := 5, botSVelocity := 5 }

/-- A two-layer model covering depths `[0, 10]` with a velocity jump at the
internal boundary, used as a concrete input for the lookup claims. -/
def exTwoLayer : VelocityModel :=
  { radiusOfEarth := 10
    maxRadius := 10
    layers := [exLayer0, exLayer1] }

/-! ### Claims C2 and C3: layer-number lookup -/

/-- C2 (amended): on a model whose layers tile `[0, maxDepth]` contiguously,
`layerNumberAbove` returns an index whose layer satisfies
`topDepth < depth <= botDepth` and `layerNumberBelow` one satisfying
`topDepth <= depth < botDepth`; `layerNumberAbove` raises "no such layer"
exactly when `depth <= 0` or `depth > maxDepth`, and `layerNumberBelow`
exactly when `depth < 0` or `depth >= maxDepth` — in particular each raises at
one endpoint of the model's depth range, not only outside it. -/
theorem C2_layerNumber_lookup (m : VelocityModel)
    (hch : chainedFrom 0 m.layers = true)
    (dA dB dN dM : ℚ) (iA iB : Nat)
    (hA : m.layerNumberAbove dA = some iA) (hB : m.layerNumberBelow dB = some iB) :
    (∃ l, m.layers.get? iA = some l ∧ l.topDepth < dA ∧ dA ≤ l.botDepth) ∧
    (∃ l, m.layers.get? iB = some l ∧ l.topDepth ≤ dB ∧ dB < l.botDepth) ∧
    (m.layerNumberAbove dN = none ↔ dN ≤ 0 ∨ stackBot 0 m.layers < dN) ∧
    (m.layerNumberBelow dM = none ↔ dM < 0 ∨ stackBot 0 m.layers ≤ dM) := by
  refine ⟨layerNumberAboveAux_some hA, layerNumberBelowAux_some hB, ?_, ?_⟩
  · exact layerNumberAboveAux_none_iff hch dN
  · exact layerNumberBelowAux_none_iff hch dM

/-- C2 witness: the lookup theorem applied to the concrete two-layer model at
depths 3 (above, index 0), 5 (below, index 1), and the error characterisation
at depths 11 and 10. -/
theorem C2_layerNumber_lookup_witness :
    (∃ l, exTwoLayer.layers.get? 0 = some l ∧ l.topDepth < 3 ∧ (3:ℚ) ≤ l.botDepth) ∧
    (∃ l, exTwoLayer.layers.get? 1 = some l ∧ l.topDepth ≤ 5 ∧ (5:ℚ) < l.botDepth) ∧
    (exTwoLayer.layerNumberAbove 11 = none ↔ (11:ℚ) ≤ 0 ∨ stackBot 0 exTwoLayer.layers < 11) ∧
    (exTwoLayer.layerNumberBelow 10 = none ↔ (10:ℚ) < 0 ∨ stackBot 0 exTwoLayer.layers ≤ 10) :=
  C2_layerNumber_lookup exTwoLayer (by decide) 3 5 11 10 0 1 (by decide) (by decide)

/-- C2 counterexample: on the two-layer model covering `[0, 10]`, depth 0 lies
inside the model's depth range, yet `layerNumberAbove(0)` raises "no such
layer" — refuting "raises exactly when depth lies outside the model's depth
range". -/
theorem C2_counterexample :
    chainedFrom 0 exTwoLayer.layers = true ∧
    ((0:ℚ) ≤ 0 ∧ (0:ℚ) ≤ stackBot 0 exTwoLayer.layers) ∧
    exTwoLayer.layerNumberAbove 0 = none := by decide

/-- C3 (amended): on a model whose layers tile `[0, maxDepth]`, at an internal
layer boundary `layerNumberAbove` returns the upper layer's index and
`layerNumberBelow` the lower one's (indices differing by exactly one), and at
a depth strictly inside a layer both return that layer's index; at the two
ends of the depth range (0 and maxDepth) one of the lookups raises instead, so
the "equal everywhere else" clause holds only strictly inside the range. -/
theorem C3_boundary_offsets (m : VelocityModel)
    (hch : chainedFrom 0 m.layers = true)
    (i : Nat) (a b : VelocityLayer)
    (ha : m.layers.get? i = some a) (hb : m.layers.get? (i + 1) = some b)
    (j : Nat) (l : VelocityLayer) (d : ℚ)
    (hl : m.layers.get? j = some l) (hd1 : l.topDepth < d) (hd2 : d < l.botDepth) :
    (m.layerNumberAbove a.botDepth = some i ∧
     m.layerNumberBelow a.botDepth = some (i + 1)) ∧
    (m.layerNumberAbove d = some j ∧ m.layerNumberBelow d = some j) := by
  have hthick_a : a.topDepth < a.botDepth := chained_get_thick hch ha
  have hthick_b : b.topDepth < b.botDepth := chained_get_thick hch hb
  have hadj : b.topDepth = a.botDepth := chained_adj_top hch ha hb
  refine ⟨⟨?_, ?_⟩, ?_, ?_⟩
  · exact layerNumberAboveAux_at hch ha hthick_a le_rfl
  · exact layerNumberBelowAux_at hch hb (le_of_eq hadj) (hadj ▸ hthick_b)
  · exact layerNumberAboveAux_at hch hl hd1 (le_of_lt hd2)
  · exact layerNumberBelowAux_at hch hl (le_of_lt hd1) hd2

/-- C3 witness: the boundary/interior index theorem applied to the two-layer
model at its internal boundary (depth 5) and at the interior depth 7. -/
theorem C3_boundary_offsets_witness :
    (exTwoLayer.layerNumberAbove 5 = some 0 ∧
     exTwoLayer.layerNumberBelow 5 = some 1) ∧
    (exTwoLayer.layerNumberAbove 7 = some 1 ∧ exTwoLayer.layerNumberBelow 7 = some 1) := by
  have h := C3_boundary_offsets exTwoLayer (by decide) 0 exLayer0 exLayer1
    (by decide) (by decide) 1 exLayer1 7 (by decide) (by decide) (by decide)
  exact h

/-- C3 counterexample: depth 0 lies in the model's depth range `[0, 10]` and is
not an internal boundary, yet `layerNumberAbove` and `layerNumberBelow` do not
return equal indices there: the below lookup returns index 0 while the above
lookup raises — refuting "equal at every other depth in the model's range". -/
theorem C3_counterexample :
    chainedFrom 0 exTwoLayer.layers = true ∧
    ((0:ℚ) ≤ 0 ∧ (0:ℚ) ≤ stackBot 0 exTwoLayer.layers) ∧
    (∀ p ∈ layerPairs exTwoLayer.layers, p.1.botDepth ≠ 0) ∧
    exTwoLayer.layerNumberBelow 0 = some 0 ∧ exTwoLayer.layerNumberAbove 0 = none := by
  decide

/-! ### Facts about the discontinuity list -/

theorem chained_get_bot_le {t : ℚ} {ls : List VelocityLayer} {k : Nat} {l' : VelocityLayer}
    (h : chainedFrom t ls = true) (hk : ls.get? k = some l') :
    l'.botDepth ≤ stackBot t ls := by
  induction ls generalizing t k with
  | nil => simp at hk
  | cons l rest ih =>
    obtain ⟨_, _, h3⟩ := chainedFrom_cons h
    show l'.botDepth ≤ stackBot l.botDepth rest
    cases k with
    | zero =>
      simp only [List.get?] at hk
      cases hk
      exact stackBot_ge h3
    | succ k' =>
      simp only [List.get?] at hk
      exact ih h3 hk

theorem mem_layerPairs {ls : List VelocityLayer} {p : VelocityLayer × VelocityLayer} :
    p ∈ layerPairs ls ↔ ∃ i, ls.get? i = some p.1 ∧ ls.get? (i + 1) = some p.2 := by
  obtain ⟨p1, p2⟩ := p
  induction ls with
  | nil =>
    constructor
    · intro h; simp [layerPairs] at h
    · rintro ⟨i, h1, _⟩; simp at h1
  | cons l rest ih =>
    cases rest with
    | nil =>
      constructor
      · intro h; simp [layerPairs] at h
      · rintro ⟨i, h1, h2⟩
        cases i with
        | zero => simp at h2
        | succ i' => simp at h1
    | cons l2 rest2 =>
      have hstep : layerPairs (l :: l2 :: rest2) = (l, l2) :: layerPairs (l2 :: rest2) := rfl
      rw [hstep]
      constructor
      · intro h
        rcases List.mem_cons.mp h with heq | hmem
        · obtain ⟨rfl, rfl⟩ := Prod.mk.inj heq
          exact ⟨0, rfl, rfl⟩
        · obtain ⟨i, hi1, hi2⟩ := ih.mp hmem
          exact ⟨i + 1, hi1, hi2⟩
      · rintro ⟨i, h1, h2⟩
        cases i with
        | zero =>
          simp only [List.get?] at h1 h2
          cases h1
          cases h2
          exact List.mem_cons_self _ _
        | succ i' =>
          exact List.mem_cons_of_mem _ (ih.mpr ⟨i', h1, h2⟩)

theorem mem_disconMids {ls : List VelocityLayer} {x : ℚ} :
    x ∈ disconMids ls ↔
      ∃ p ∈ layerPairs ls, isVelocityDiscon p.1 p.2 = true ∧ x = p.1.botDepth := by
  simp only [disconMids, List.mem_filterMap]
  constructor
  · rintro ⟨p, hp, hx⟩
    by_cases hd : isVelocityDiscon p.1 p.2 = true
    · rw [if_pos hd] at hx
      cases hx
      exact ⟨p, hp, hd, rfl⟩
    · rw [if_neg hd] at hx
      cases hx
  · rintro ⟨p, hp, hd, rfl⟩
    exact ⟨p, hp, by rw [if_pos hd]⟩

theorem disconMids_bounds {t : ℚ} {ls : List VelocityLayer}
    (h : chainedFrom t ls = true) {x : ℚ} (hx : x ∈ disconMids ls) :
    t < x ∧ x < stackBot t ls := by
  obtain ⟨p, hp, _, rfl⟩ := mem_disconMids.mp hx
  obtain ⟨i, hi1, hi2⟩ := mem_layerPairs.mp hp
  constructor
  · calc t ≤ p.1.topDepth := chained_get_top_ge h hi1
      _ < p.1.botDepth := chained_get_thick h hi1
  · have hadj : p.2.topDepth = p.1.botDepth := chained_adj_top h hi1 hi2
    calc p.1.botDepth = p.2.topDepth := hadj.symm
      _ < p.2.botDepth := chained_get_thick h hi2
      _ ≤ stackBot t ls := chained_get_bot_le h hi2

theorem disconMids_pairwise {t : ℚ} {ls : List VelocityLayer}
    (h : chainedFrom t ls = true) : List.Pairwise (· < ·) (disconMids ls) := by
  induction ls generalizing t with
  | nil => simp [disconMids, layerPairs]
  | cons l rest ih =>
    cases rest with
    | nil => simp [disconMids, layerPairs]
    | cons l2 rest2 =>
      obtain ⟨h1, h2, h3⟩ := chainedFrom_cons h
      have hl2top : l2.topDepth = l.botDepth := (chainedFrom_cons h3).1
      by_cases hd : isVelocityDiscon l l2 = true
      · have heq : disconMids (l :: l2 :: rest2) = l.botDepth :: disconMids (l2 :: rest2) := by
          simp [disconMids, layerPairs, List.filterMap_cons, hd]
        rw [heq, List.pairwise_cons]
        refine ⟨?_, ih h3⟩
        intro x hx
        exact (disconMids_bounds h3 hx).1
      · have heq : disconMids (l :: l2 :: rest2) = disconMids (l2 :: rest2) := by
          simp [disconMids, layerPairs, List.filterMap_cons, hd]
        rw [heq]
        exact ih h3

theorem stackBot_getLastD (t : ℚ) (l0 : VelocityLayer) (rest : List VelocityLayer) :
    stackBot t (l0 :: rest) = ((l0 :: rest).getLastD l0).botDepth := by
  induction rest generalizing t l0 with
  | nil => rfl
  | cons l1 rest1 ih =>
    have h1 : (l0 :: l1 :: rest1).getLastD l0 = (l1 :: rest1).getLastD l1 := by
      simp only [List.getLastD_cons]
    rw [h1]
    exact ih l0.botDepth l1

/-! ### Claim C4: getDisconDepths -/

/-- C4 (amended): for every model with at least one layer whose layers tile the
depth range contiguously, `getDisconDepths` returns the strictly increasing
sequence of depths consisting of the FIRST LAYER'S TOP DEPTH (depth 0 for a
model whose coverage starts at the surface), every internal boundary at which
the upper layer's bottom P or S velocity differs from the lower layer's top
velocity, and the bottom depth of the last layer (the model's maximum depth);
the two endpoint depths are included regardless of velocity continuity. -/
theorem C4_getDisconDepths (m : VelocityModel) (l0 : VelocityLayer)
    (rest : List VelocityLayer) (hl : m.layers = l0 :: rest)
    (hch : chainedFrom l0.topDepth m.layers = true) :
    ∃ ds, m.getDisconDepths = some ds ∧
      ds.head? = some l0.topDepth ∧
      ds.getLast? = some (stackBot l0.topDepth m.layers) ∧
      List.Sorted (· < ·) ds ∧
      ∀ x, x ∈ ds ↔ (x = l0.topDepth ∨ x = stackBot l0.topDepth m.layers ∨
        ∃ i a b, m.layers.get? i = some a ∧ m.layers.get? (i + 1) = some b ∧
          isVelocityDiscon a b = true ∧ x = a.botDepth) := by
  have hds : m.getDisconDepths =
      some (l0.topDepth ::
        (disconMids m.layers ++ [stackBot l0.topDepth m.layers])) := by
    rw [hl]
    unfold VelocityModel.getDisconDepths
    rw [hl, stackBot_getLastD l0.topDepth l0 rest]
  refine ⟨_, hds, rfl, ?_, ?_, ?_⟩
  · rw [← List.cons_append, List.getLast?_concat]
  · rw [hl] at hch ⊢
    have hnil : stackBot l0.topDepth (l0 :: rest) = stackBot l0.botDepth rest := rfl
    have hbot : l0.topDepth < stackBot l0.topDepth (l0 :: rest) := by
      obtain ⟨_, h2, h3⟩ := chainedFrom_cons hch
      rw [hnil]
      calc l0.topDepth < l0.botDepth := h2
        _ ≤ stackBot l0.botDepth rest := stackBot_ge h3
    rw [List.sorted_cons]
    constructor
    · intro x hx
      rcases List.mem_append.mp hx with hx | hx
      · exact (disconMids_bounds hch hx).1
      · rw [List.mem_singleton.mp hx]
        exact hbot
    · rw [List.Sorted, List.pairwise_append]
      refine ⟨disconMids_pairwise hch, List.pairwise_singleton _ _, ?_⟩
      intro x hx y hy
      rw [List.mem_singleton.mp hy]
      exact (disconMids_bounds hch hx).2
  · intro x
    rw [List.mem_cons, List.mem_append, List.mem_singleton]
    constructor
    · rintro (hx | hx | hx)
      · exact Or.inl hx
      · obtain ⟨p, hp, hd, rfl⟩ := mem_disconMids.mp hx
        obtain ⟨i, hi1, hi2⟩ := mem_layerPairs.mp hp
        exact Or.inr (Or.inr ⟨i, p.1, p.2, hi1, hi2, hd, rfl⟩)
      · exact Or.inr (Or.inl hx)
    · rintro (hx | hx | ⟨i, a, b, hi1, hi2, hd, rfl⟩)
      · exact Or.inl hx
      · exact Or.inr (Or.inr hx)
      · refine Or.inr (Or.inl (mem_disconMids.mpr ⟨(a, b), ?_, hd, rfl⟩))
        exact mem_layerPairs.mpr ⟨i, hi1, hi2⟩

/-- C4 witness: the characterisation applied to the concrete two-layer model,
whose discontinuity list is `[0, 5, 10]`. -/
theorem C4_getDisconDepths_witness :
    ∃ ds, exTwoLayer.getDisconDepths = some ds ∧
      ds.head? = some exLayer0.topDepth ∧
      ds.getLast? = some (stackBot exLayer0.topDepth exTwoLayer.layers) ∧
      List.Sorted (· < ·) ds ∧
      ∀ x, x ∈ ds ↔ (x = exLayer0.topDepth ∨
        x = stackBot exLayer0.topDepth exTwoLayer.layers ∨
        ∃ i a b, exTwoLayer.layers.get? i = some a ∧
          exTwoLayer.layers.get? (i + 1) = some b ∧
          isVelocityDiscon a b = true ∧ x = a.botDepth) :=
  C4_getDisconDepths exTwoLayer exLayer0 [exLayer1] rfl (by decide)

/-- A one-layer model whose coverage starts at depth 1 rather than at the
surface, used to refute the literal "depth 0" clause of C4. -/
def exShifted : VelocityModel :=
  { radiusOfEarth := 2
    maxRadius := 2
    layers := [{ layerNumber := 0, topDepth := 1, botDepth := 2,
                 topPVelocity := 1, botPVelocity := 1,
                 topSVelocity := 1, botSVelocity := 1 }] }

/-- C4 counterexample: on a one-layer model with the layer `[1, 2]`,
`getDisconDepths` returns `[1, 2]`, which does not contain depth 0 — the
claim's "ordered sequence of depths consisting of depth 0 (the surface), …"
fails for models whose first layer does not start at depth 0. -/
theorem C4_counterexample :
    exShifted.getDisconDepths = some [1, 2] ∧ (0:ℚ) ∉ ([1, 2] : List ℚ) := by decide

/-! ### Facts about the fixDisconDepths scan -/

theorem fixDisconStep_eq (moho cmb iocb : ℚ) (s : DisconScanState)
    (p : VelocityLayer × VelocityLayer) :
    fixDisconStep moho cmb iocb s p =
      if p.1.botPVelocity ≠ p.2.topPVelocity ∨ p.1.botSVelocity ≠ p.2.topSVelocity then
        { mohoMin := if |moho - p.1.botDepth| < s.mohoMin then |moho - p.1.botDepth|
                     else s.mohoMin
          tempMohoDepth := if |moho - p.1.botDepth| < s.mohoMin then p.1.botDepth
                           else s.tempMohoDepth
          cmbMin := if |cmb - p.1.botDepth| < s.cmbMin then |cmb - p.1.botDepth|
                    else s.cmbMin
          tempCmbDepth := if |cmb - p.1.botDepth| < s.cmbMin then p.1.botDepth
                          else s.tempCmbDepth
          iocbMin := if p.1.botSVelocity = 0 ∧ p.2.topSVelocity > 0 ∧
                        |iocb - p.1.botDepth| < s.iocbMin then |iocb - p.1.botDepth|
                     else s.iocbMin
          tempIocbDepth := if p.1.botSVelocity = 0 ∧ p.2.topSVelocity > 0 ∧
                              |iocb - p.1.botDepth| < s.iocbMin then p.1.botDepth
                           else s.tempIocbDepth }
      else s := by
  simp only [fixDisconStep]
  split_ifs <;> rfl

theorem scan_moho_fixed (moho cmb iocb : ℚ) (ps : List (VelocityLayer × VelocityLayer))
    (s : DisconScanState)
    (h : ∀ p ∈ ps,
      (p.1.botPVelocity ≠ p.2.topPVelocity ∨ p.1.botSVelocity ≠ p.2.topSVelocity) →
      ¬ |moho - p.1.botDepth| < s.mohoMin) :
    (ps.foldl (fixDisconStep moho cmb iocb) s).mohoMin = s.mohoMin ∧
    (ps.foldl (fixDisconStep moho cmb iocb) s).tempMohoDepth = s.tempMohoDepth := by
  induction ps generalizing s with
  | nil => exact ⟨rfl, rfl⟩
  | cons p ps ih =>
    have hstep : (fixDisconStep moho cmb iocb s p).mohoMin = s.mohoMin ∧
        (fixDisconStep moho cmb iocb s p).tempMohoDepth = s.tempMohoDepth := by
      rw [fixDisconStep_eq]
      by_cases hd : p.1.botPVelocity ≠ p.2.topPVelocity ∨ p.1.botSVelocity ≠ p.2.topSVelocity
      · rw [if_pos hd, if_neg (h p (List.mem_cons_self _ _) hd),
          if_neg (h p (List.mem_cons_self _ _) hd)]
        exact ⟨rfl, rfl⟩
      · rw [if_neg hd]
        exact ⟨rfl, rfl⟩
    rw [List.foldl_cons]
    have := ih (fixDisconStep moho cmb iocb s p)
      (by
        intro q hq hdq
        rw [hstep.1]
        exact h q (List.mem_cons_of_mem _ hq) hdq)
    rw [this.1, this.2, hstep.1, hstep.2]
    exact ⟨rfl, rfl⟩

theorem scan_cmb_fixed (moho cmb iocb : ℚ) (ps : List (VelocityLayer × VelocityLayer))
    (s : DisconScanState)
    (h : ∀ p ∈ ps,
      (p.1.botPVelocity ≠ p.2.topPVelocity ∨ p.1.botSVelocity ≠ p.2.topSVelocity) →
      ¬ |cmb - p.1.botDepth| < s.cmbMin) :
    (ps.foldl (fixDisconStep moho cmb iocb) s).cmbMin = s.cmbMin ∧
    (ps.foldl (fixDisconStep moho cmb iocb) s).tempCmbDepth = s.tempCmbDepth := by
  induction ps generalizing s with
  | nil => exact ⟨rfl, rfl⟩
  | cons p ps ih =>
    have hstep : (fixDisconStep moho cmb iocb s p).cmbMin = s.cmbMin ∧
        (fixDisconStep moho cmb iocb s p).tempCmbDepth = s.tempCmbDepth := by
      rw [fixDisconStep_eq]
      by_cases hd : p.1.botPVelocity ≠ p.2.topPVelocity ∨ p.1.botSVelocity ≠ p.2.topSVelocity
      · rw [if_pos hd, if_neg (h p (List.mem_cons_self _ _) hd),
          if_neg (h p (List.mem_cons_self _ _) hd)]
        exact ⟨rfl, rfl⟩
      · rw [if_neg hd]
        exact ⟨rfl, rfl⟩
    rw [List.foldl_cons]
    have := ih (fixDisconStep moho cmb iocb s p)
      (by
        intro q hq hdq
        rw [hstep.1]
        exact h q (List.mem_cons_of_mem _ hq) hdq)
    rw [this.1, this.2, hstep.1, hstep.2]
    exact ⟨rfl, rfl⟩

theorem scan_iocb_fixed (moho cmb iocb : ℚ) (ps : List (VelocityLayer × VelocityLayer))
    (s : DisconScanState)
    (h : ∀ p ∈ ps,
      ¬(p.1.botSVelocity = 0 ∧ p.2.topSVelocity > 0 ∧ |iocb - p.1.botDepth| < s.iocbMin)) :
    (ps.foldl (fixDisconStep moho cmb iocb) s).iocbMin = s.iocbMin ∧
    (ps.foldl (fixDisconStep moho cmb iocb) s).tempIocbDepth = s.tempIocbDepth := by
  induction ps generalizing s with
  | nil => exact ⟨rfl, rfl⟩
  | cons p ps ih =>
    have hstep : (fixDisconStep moho cmb iocb s p).iocbMin = s.iocbMin ∧
        (fixDisconStep moho cmb iocb s p).tempIocbDepth = s.tempIocbDepth := by
      rw [fixDisconStep_eq]
      by_cases hd : p.1.botPVelocity ≠ p.2.topPVelocity ∨ p.1.botSVelocity ≠ p.2.topSVelocity
      · rw [if_pos hd, if_neg (h p (List.mem_cons_self _ _)),
          if_neg (h p (List.mem_cons_self _ _))]
        exact ⟨rfl, rfl⟩
      · rw [if_neg hd]
        exact ⟨rfl, rfl⟩
    rw [List.foldl_cons]
    have := ih (fixDisconStep moho cmb iocb s p)
      (by
        intro q hq
        rw [hstep.1]
        exact h q (List.mem_cons_of_mem _ hq))
    rw [this.1, this.2, hstep.1, hstep.2]
    exact ⟨rfl, rfl⟩

theorem scan_iocb_cases (moho cmb iocb : ℚ) (ps : List (VelocityLayer × VelocityLayer))
    (s : DisconScanState) :
    (ps.foldl (fixDisconStep moho cmb iocb) s).tempIocbDepth = s.tempIocbDepth ∨
    ∃ p ∈ ps, p.1.botSVelocity = 0 ∧ p.2.topSVelocity > 0 ∧
      (ps.foldl (fixDisconStep moho cmb iocb) s).tempIocbDepth = p.1.botDepth := by
  induction ps generalizing s with
  | nil => exact Or.inl rfl
  | cons p ps ih =>
    rw [List.foldl_cons]
    have hstep : (fixDisconStep moho cmb iocb s p).tempIocbDepth = s.tempIocbDepth ∨
        (p.1.botSVelocity = 0 ∧ p.2.topSVelocity > 0 ∧
          (fixDisconStep moho cmb iocb s p).tempIocbDepth = p.1.botDepth) := by
      rw [fixDisconStep_eq]
      by_cases hd : p.1.botPVelocity ≠ p.2.topPVelocity ∨ p.1.botSVelocity ≠ p.2.topSVelocity
      · rw [if_pos hd]
        by_cases hi : p.1.botSVelocity = 0 ∧ p.2.topSVelocity > 0 ∧
            |iocb - p.1.botDepth| < s.iocbMin
        · exact Or.inr ⟨hi.1, hi.2.1, if_pos hi⟩
        · exact Or.inl (if_neg hi)
      · rw [if_neg hd]
        exact Or.inl rfl
    rcases ih (fixDisconStep moho cmb iocb s p) with heq | ⟨q, hq, hq1, hq2, hq3⟩
    · rcases hstep with h1 | ⟨h1, h2, h3⟩
      · exact Or.inl (heq.trans h1)
      · exact Or.inr ⟨p, List.mem_cons_self _ _, h1, h2, heq.trans h3⟩
    · exact Or.inr ⟨q, List.mem_cons_of_mem _ hq, hq1, hq2, hq3⟩

/-! ### Claims C5, C6, C10: fixDisconDepths -/

/-- C5 (amended): `fixDisconDepths` returns True iff the stored `mohoDepth` or
`cmbDepth` differs from its new value, or the stored `iocbDepth` differs from
the iocb CANDIDATE selected by the scan (`tempIocbDepth`) — the comparison at
line 636 uses the candidate, not the final `iocbDepth`, which line 640 resets
to `radiusOfEarth` when the cmb and iocb candidates coincide.  Whenever the two
candidates differ, this is exactly "True iff any of the three depths
changed". -/
theorem C5_changeMade (m : VelocityModel) :
    (m.fixDisconDepths.2 = true ↔
      (m.mohoDepth ≠ m.fixDisconDepths.1.mohoDepth ∨
       m.cmbDepth ≠ m.fixDisconDepths.1.cmbDepth ∨
       m.iocbDepth ≠ (fixDisconScan m).tempIocbDepth)) ∧
    ((fixDisconScan m).tempCmbDepth ≠ (fixDisconScan m).tempIocbDepth →
      (m.fixDisconDepths.2 = true ↔
        (m.mohoDepth ≠ m.fixDisconDepths.1.mohoDepth ∨
         m.cmbDepth ≠ m.fixDisconDepths.1.cmbDepth ∨
         m.iocbDepth ≠ m.fixDisconDepths.1.iocbDepth))) := by
  constructor
  · simp only [VelocityModel.fixDisconDepths, decide_eq_true_eq]
  · intro h
    simp only [VelocityModel.fixDisconDepths, decide_eq_true_eq, if_pos h]

/-- The model whose single velocity discontinuity (at depth 500, where the S
velocity drops to zero going up and is positive below — the liquid-to-solid
signature) is simultaneously the stored cmb depth and the stored iocb depth,
so the cmb and iocb candidates coincide and line 640 resets `iocbDepth`. -/
def exCoincident : VelocityModel :=
  { radiusOfEarth := 1000
    mohoDepth := 0
    cmbDepth := 500
    iocbDepth := 500
    maxRadius := 1000
    layers := [{ layerNumber := 0, topDepth := 0, botDepth := 500,
                 topPVelocity := 8, botPVelocity := 8,
                 topSVelocity := 4, botSVelocity := 0 },
               { layerNumber := 1, topDepth := 500, botDepth := 1000,
                 topPVelocity := 8, botPVelocity := 8,
                 topSVelocity := 3, botSVelocity := 3 }] }

/-- C5 counterexample: on `exCoincident`, `fixDisconDepths` returns False even
though the call changes `iocbDepth` from 500 to `radiusOfEarth = 1000` — so
"returns True iff at least one of the three depths changed" is false. -/
theorem C5_counterexample :
    exCoincident.fixDisconDepths.2 = false ∧
    exCoincident.fixDisconDepths.1.iocbDepth = 1000 ∧
    exCoincident.iocbDepth = 500 := by
  norm_num [exCoincident, VelocityModel.fixDisconDepths, fixDisconScan, fixDisconInit,
    fixDisconStep, layerPairs]

/-- C6: in `fixDisconDepths`, only boundaries with S velocity zero above and
strictly positive below qualify as iocb candidates (the final `iocbDepth` is
either `radiusOfEarth` or the depth of such a boundary); when no boundary has
that liquid-to-solid signature the resulting `iocbDepth` is `radiusOfEarth`;
and when the selected cmb and iocb candidates coincide, `iocbDepth` is reset
to `radiusOfEarth`. -/
theorem C6_iocb_candidates (m : VelocityModel) :
    (m.fixDisconDepths.1.iocbDepth = m.radiusOfEarth ∨
      ∃ p ∈ layerPairs m.layers, p.1.botSVelocity = 0 ∧ p.2.topSVelocity > 0 ∧
        m.fixDisconDepths.1.iocbDepth = p.1.botDepth) ∧
    ((∀ p ∈ layerPairs m.layers,
        ¬(p.1.botSVelocity = 0 ∧ p.2.topSVelocity > 0)) →
      m.fixDisconDepths.1.iocbDepth = m.radiusOfEarth) ∧
    ((fixDisconScan m).tempCmbDepth = (fixDisconScan m).tempIocbDepth →
      m.fixDisconDepths.1.iocbDepth = m.radiusOfEarth) := by
  have hfinal : m.fixDisconDepths.1.iocbDepth =
      if (fixDisconScan m).tempCmbDepth ≠ (fixDisconScan m).tempIocbDepth then
        (fixDisconScan m).tempIocbDepth
      else m.radiusOfEarth := rfl
  refine ⟨?_, ?_, ?_⟩
  · rcases scan_iocb_cases m.mohoDepth m.cmbDepth m.iocbDepth (layerPairs m.layers)
        (fixDisconInit m) with heq | ⟨p, hp, h1, h2, h3⟩
    · left
      rw [hfinal]
      split_ifs with hne
      · exact heq
      · rfl
    · rw [hfinal]
      split_ifs with hne
      · exact Or.inr ⟨p, hp, h1, h2, h3⟩
      · exact Or.inl rfl
  · intro h
    have hfix := scan_iocb_fixed m.mohoDepth m.cmbDepth m.iocbDepth (layerPairs m.layers)
      (fixDisconInit m) (by
        intro p hp hcon
        exact h p hp ⟨hcon.1, hcon.2.1⟩)
    rw [hfinal]
    split_ifs with hne
    · exact hfix.2
    · rfl
  · intro h
    rw [hfinal, if_neg (by exact fun hne => hne h)]

/-- C6 witness: on the two-layer model (whose only discontinuity has positive
S velocity on both sides, hence no liquid-to-solid signature and coinciding
candidates), all three parts of the iocb theorem, the conditional ones with
their hypotheses discharged: the final `iocbDepth` is the model radius. -/
theorem C6_iocb_candidates_witness :
    (exTwoLayer.fixDisconDepths.1.iocbDepth = exTwoLayer.radiusOfEarth ∨
      ∃ p ∈ layerPairs exTwoLayer.layers, p.1.botSVelocity = 0 ∧ p.2.topSVelocity > 0 ∧
        exTwoLayer.fixDisconDepths.1.iocbDepth = p.1.botDepth) ∧
    exTwoLayer.fixDisconDepths.1.iocbDepth = exTwoLayer.radiusOfEarth ∧
    exTwoLayer.fixDisconDepths.1.iocbDepth = exTwoLayer.radiusOfEarth :=
  ⟨(C6_iocb_candidates exTwoLayer).1,
   (C6_iocb_candidates exTwoLayer).2.1 (by decide),
   (C6_iocb_candidates exTwoLayer).2.2 (by
      norm_num [fixDisconScan, fixDisconInit, fixDisconStep, layerPairs, exTwoLayer,
        exLayer0, exLayer1])⟩

/-- C10: the fallback overwrites of `fixDisconDepths`: when no velocity
discontinuity lies within the initial 65 km window of the stored `mohoDepth`,
the stored value is overwritten with 0; when none lies within `radiusOfEarth`
of the stored `cmbDepth`, it is overwritten with `radiusOfEarth`; and when no
boundary has the liquid-to-solid S signature inside the initial
`radiusOfEarth - 100` window of the stored `iocbDepth`, `iocbDepth` is
overwritten with `radiusOfEarth`. -/
theorem C10_fixDiscon_fallbacks (m : VelocityModel) :
    ((∀ p ∈ layerPairs m.layers,
        (p.1.botPVelocity ≠ p.2.topPVelocity ∨ p.1.botSVelocity ≠ p.2.topSVelocity) →
        65 ≤ |m.mohoDepth - p.1.botDepth|) →
      m.fixDisconDepths.1.mohoDepth = 0) ∧
    ((∀ p ∈ layerPairs m.layers,
        (p.1.botPVelocity ≠ p.2.topPVelocity ∨ p.1.botSVelocity ≠ p.2.topSVelocity) →
        m.radiusOfEarth ≤ |m.cmbDepth - p.1.botDepth|) →
      m.fixDisconDepths.1.cmbDepth = m.radiusOfEarth) ∧
    ((∀ p ∈ layerPairs m.layers,
        ¬(p.1.botSVelocity = 0 ∧ p.2.topSVelocity > 0 ∧
          |m.iocbDepth - p.1.botDepth| < m.radiusOfEarth - 100)) →
      m.fixDisconDepths.1.iocbDepth = m.radiusOfEarth) := by
  refine ⟨?_, ?_, ?_⟩
  · intro h
    have hfix := scan_moho_fixed m.mohoDepth m.cmbDepth m.iocbDepth (layerPairs m.layers)
      (fixDisconInit m) (by
        intro p hp hd
        exact not_lt.mpr (h p hp hd))
    exact hfix.2
  · intro h
    have hfix := scan_cmb_fixed m.mohoDepth m.cmbDepth m.iocbDepth (layerPairs m.layers)
      (fixDisconInit m) (by
        intro p hp hd
        exact not_lt.mpr (h p hp hd))
    exact hfix.2
  · intro h
    have hfix := scan_iocb_fixed m.mohoDepth m.cmbDepth m.iocbDepth (layerPairs m.layers)
      (fixDisconInit m) h
    have hfinal : m.fixDisconDepths.1.iocbDepth =
        if (fixDisconScan m).tempCmbDepth ≠ (fixDisconScan m).tempIocbDepth then
          (fixDisconScan m).tempIocbDepth
        else m.radiusOfEarth := rfl
    rw [hfinal]
    split_ifs with hne
    · exact hfix.2
    · rfl

/-- A one-layer model (no internal boundaries at all) with stored boundary
depths 35/60/80, used to exhibit the fallback overwrites. -/
def exUniform : VelocityModel :=
  { radiusOfEarth := 100
    mohoDepth := 35
    cmbDepth := 60
    iocbDepth := 80
    maxRadius := 100
    layers := [{ layerNumber := 0, topDepth := 0, botDepth := 100,
                 topPVelocity := 8, botPVelocity := 8,
                 topSVelocity := 4, botSVelocity := 4 }] }

/-- C10 witness: on the one-layer model (no discontinuities, so all three
no-candidate hypotheses hold vacuously), the stored depths 35/60/80 are
overwritten with the fallbacks 0, 100 (= radius), 100. -/
theorem C10_fixDiscon_fallbacks_witness :
    exUniform.fixDisconDepths.1.mohoDepth = 0 ∧
    exUniform.fixDisconDepths.1.cmbDepth = exUniform.radiusOfEarth ∧
    exUniform.fixDisconDepths.1.iocbDepth = exUniform.radiusOfEarth :=
  ⟨(C10_fixDiscon_fallbacks exUniform).1 (by decide),
   (C10_fixDiscon_fallbacks exUniform).2.1 (by decide),
   (C10_fixDiscon_fallbacks exUniform).2.2 (by decide)⟩

/-! ### Claim C9: validate -/

theorem validateLayers_false_of_ramp {ls : List VelocityLayer} {l : VelocityLayer}
    (hmem : l ∈ ls)
    (hramp : (l.topPVelocity ≠ 0 ∧ l.botPVelocity = 0) ∨
      (l.topPVelocity = 0 ∧ l.botPVelocity ≠ 0) ∨
      (l.topSVelocity ≠ 0 ∧ l.botSVelocity = 0) ∨
      (l.topSVelocity = 0 ∧ l.botSVelocity ≠ 0))
    (prevBot : ℚ) :
    validateLayers prevBot ls = false := by
  induction ls generalizing prevBot with
  | nil => simp at hmem
  | cons a rest ih =>
    rw [validateLayers]
    rcases List.mem_cons.mp hmem with rfl | hmem'
    · split_ifs with h1 h2 h3 h4 h5 h6
      · rfl
      · rfl
      · rfl
      · rfl
      · rfl
      · rfl
      · exfalso
        rcases hramp with ⟨hp1, hp2⟩ | ⟨hp1, hp2⟩ | ⟨hs1, hs2⟩ | ⟨hs1, hs2⟩
        · exact h3 (Or.inr (le_of_eq hp2))
        · exact h3 (Or.inl (le_of_eq hp1))
        · exact h6 (Or.inl ⟨hs1, hs2⟩)
        · exact h6 (Or.inr ⟨hs1, hs2⟩)
    · split_ifs
      · rfl
      · rfl
      · rfl
      · rfl
      · rfl
      · rfl
      · exact ih hmem' a.botDepth

theorem validate_isSome {m : VelocityModel} (hne : m.layers ≠ []) :
    (m.validate).isSome = true := by
  unfold VelocityModel.validate
  split_ifs
  all_goals
    first
    | rfl
    | (cases hl : m.layers with
       | nil => exact absurd hl hne
       | cons l0 rest => rfl)

theorem validate_false_of_ramp {m : VelocityModel} {l : VelocityLayer}
    (hmem : l ∈ m.layers)
    (hramp : (l.topPVelocity ≠ 0 ∧ l.botPVelocity = 0) ∨
      (l.topPVelocity = 0 ∧ l.botPVelocity ≠ 0) ∨
      (l.topSVelocity ≠ 0 ∧ l.botSVelocity = 0) ∨
      (l.topSVelocity = 0 ∧ l.botSVelocity ≠ 0)) :
    m.validate = some false := by
  unfold VelocityModel.validate
  split_ifs
  all_goals
    first
    | rfl
    | (cases hl : m.layers with
       | nil =>
         rw [hl] at hmem
         simp at hmem
       | cons l0 rest =>
         show some (validateLayers l0.topDepth (l0 :: rest)) = some false
         rw [validateLayers_false_of_ramp (hl ▸ hmem) hramp])

/-- C9 (amended): for every model with at least one layer, `validate` returns
a boolean and never raises (on a model with NO layers it instead raises via
`getVelocityLayer(0)`); it returns False for every model containing a layer
whose P or S velocity is exactly zero at one endpoint and nonzero at the other
(a linear ramp to zero); and a layer with strictly positive P velocities and S
velocity zero at BOTH endpoints (zero reached only across a discontinuity)
passes the per-layer checks, the loop moving on to the remaining layers.  (A
layer with P velocity zero at both endpoints is rejected by the positive-P
check, so only the S velocity may sit at zero throughout a layer.) -/
theorem C9_validate_soft_fail (m₁ m₂ : VelocityModel) (l : VelocityLayer)
    (hne : m₁.layers ≠ []) (hmem : l ∈ m₂.layers)
    (hramp : (l.topPVelocity ≠ 0 ∧ l.botPVelocity = 0) ∨
      (l.topPVelocity = 0 ∧ l.botPVelocity ≠ 0) ∨
      (l.topSVelocity ≠ 0 ∧ l.botSVelocity = 0) ∨
      (l.topSVelocity = 0 ∧ l.botSVelocity ≠ 0))
    (l' : VelocityLayer) (prevBot : ℚ) (rest : List VelocityLayer)
    (hgap : prevBot = l'.topDepth) (hthick : l'.botDepth ≠ l'.topDepth)
    (hP1 : 0 < l'.topPVelocity) (hP2 : 0 < l'.botPVelocity)
    (hS1 : l'.topSVelocity = 0) (hS2 : l'.botSVelocity = 0) :
    (m₁.validate).isSome = true ∧
    m₂.validate = some false ∧
    validateLayers prevBot (l' :: rest) = validateLayers l'.botDepth rest := by
  refine ⟨validate_isSome hne, validate_false_of_ramp hmem hramp, ?_⟩
  rw [validateLayers, if_neg (not_not_intro hgap), if_neg hthick,
    if_neg (by push_neg; exact ⟨hP1, hP2⟩),
    if_neg (by rw [hS1, hS2]; simp),
    if_neg (by
      rintro (⟨_, hzero⟩ | ⟨hzero, _⟩)
      · exact absurd hzero (ne_of_gt hP2)
      · exact absurd hzero (ne_of_gt hP1)),
    if_neg (by
      rintro (⟨hne', _⟩ | ⟨_, hne'⟩)
      · exact hne' hS1
      · exact hne' hS2)]

/-- The single layer whose S velocity ramps linearly from 4 down to exactly
zero — the pattern `validate` must reject. -/
def exRampLayer : VelocityLayer :=
  { layerNumber := 0, topDepth := 0, botDepth := 5,
    topPVelocity := 8, botPVelocity := 8, topSVelocity := 4, botSVelocity := 0 }

/-- A one-layer model containing the ramp-to-zero layer. -/
def exRamp : VelocityModel :=
  { radiusOfEarth := 5
    mohoDepth := 1
    cmbDepth := 2
    iocbDepth := 3
    maxRadius := 5
    layers := [exRampLayer] }

/-- A liquid layer: S velocity zero at both endpoints, P velocity positive —
the pattern the per-layer velocity checks must NOT reject. -/
def exLiquid : VelocityLayer :=
  { layerNumber := 0, topDepth := 0, botDepth := 5,
    topPVelocity := 8, botPVelocity := 8, topSVelocity := 0, botSVelocity := 0 }

/-- C9 witness: on the concrete ramp model, `validate` returns a boolean,
namely False; and the per-layer loop passes the concrete liquid layer. -/
theorem C9_validate_soft_fail_witness :
    (exRamp.validate).isSome = true ∧
    exRamp.validate = some false ∧
    validateLayers 0 [exLiquid] = validateLayers exLiquid.botDepth [] :=
  C9_validate_soft_fail exRamp exRamp exRampLayer (by decide) (by decide)
    (by decide) exLiquid 0 [] (by decide) (by decide) (by decide) (by decide)
    (by decide) (by decide)

/-- C9 counterexample: on the model with no layers (the bare constructor
defaults), `validate` passes all the global checks and then raises at
`getVelocityLayer(0)` instead of returning a boolean, refuting "for every
model, validate returns a boolean and never raises". -/
theorem C9_counterexample :
    ({} : VelocityModel).layers = [] ∧ VelocityModel.validate {} = none := by
  refine ⟨rfl, ?_⟩
  norm_num [VelocityModel.validate]

/-! ### Claim C1: earthFlattenTransform -/

theorem flattenLayers_length (R : ℝ) (i0 : Nat) (ls : List VelocityLayer) :
    (flattenLayers R i0 ls).length = ls.length := by
  induction ls generalizing i0 with
  | nil => rfl
  | cons l rest ih =>
    show (flattenLayer R i0 l :: flattenLayers R (i0 + 1) rest).length = _
    rw [List.length_cons, List.length_cons, ih]

theorem flattenLayers_get? (R : ℝ) (i0 k : Nat) (ls : List VelocityLayer)
    {l : VelocityLayer} (hk : ls.get? k = some l) :
    (flattenLayers R i0 ls).get? k = some (flattenLayer R (i0 + k) l) := by
  induction ls generalizing i0 k with
  | nil => simp at hk
  | cons a rest ih =>
    cases k with
    | zero =>
      simp only [List.get?] at hk
      cases hk
      rfl
    | succ k' =>
      simp only [List.get?] at hk
      have h := ih (i0 + 1) k' hk
      have harith : i0 + 1 + k' = i0 + (k' + 1) := by omega
      rw [harith] at h
      exact h

/-- C1 (amended): `earthFlattenTransform` returns a model with
`isSpherical = False` and the same number of layers, and maps each layer's
stored depths `d` to `R·ln(d/R)` and each velocity `v` at stored depth `d` to
`(R/d)·v` — the STORED DEPTH `d` itself is used as the radial distance, not
`R - d` as the flattening identity would require; for a layer at positive
depths the two new depths still preserve the layer's ordering. -/
theorem C1_earthFlatten (m : VelocityModel) (i : Nat) (l : VelocityLayer)
    (hl : m.layers.get? i = some l) (hR : 0 < m.radiusOfEarth)
    (htop : 0 < l.topDepth) (hthick : l.topDepth < l.botDepth) :
    m.earthFlattenTransform.isSpherical = false ∧
    m.earthFlattenTransform.layers.length = m.layers.length ∧
    ∃ fl, m.earthFlattenTransform.layers.get? i = some fl ∧
      fl.topDepth = (m.radiusOfEarth : ℝ) * Real.log (l.topDepth / m.radiusOfEarth) ∧
      fl.botDepth = (m.radiusOfEarth : ℝ) * Real.log (l.botDepth / m.radiusOfEarth) ∧
      fl.topPVelocity = (m.radiusOfEarth : ℝ) / l.topDepth * l.topPVelocity ∧
      fl.botPVelocity = (m.radiusOfEarth : ℝ) / l.botDepth * l.botPVelocity ∧
      fl.topSVelocity = (m.radiusOfEarth : ℝ) / l.topDepth * l.topSVelocity ∧
      fl.botSVelocity = (m.radiusOfEarth : ℝ) / l.botDepth * l.botSVelocity ∧
      fl.topDepth < fl.botDepth := by
  have hget := flattenLayers_get? (m.radiusOfEarth : ℝ) 0 i m.layers hl
  rw [Nat.zero_add] at hget
  have hR' : (0:ℝ) < (m.radiusOfEarth : ℝ) := by exact_mod_cast hR
  have htop' : (0:ℝ) < (l.topDepth : ℝ) := by exact_mod_cast htop
  have hthick' : (l.topDepth : ℝ) < (l.botDepth : ℝ) := by exact_mod_cast hthick
  refine ⟨rfl, flattenLayers_length _ _ _, flattenLayer m.radiusOfEarth i l, hget,
    rfl, rfl, (div_mul_eq_mul_div _ _ _).symm, (div_mul_eq_mul_div _ _ _).symm,
    (div_mul_eq_mul_div _ _ _).symm, (div_mul_eq_mul_div _ _ _).symm, ?_⟩
  show (m.radiusOfEarth : ℝ) * Real.log (l.topDepth / m.radiusOfEarth) <
    (m.radiusOfEarth : ℝ) * Real.log (l.botDepth / m.radiusOfEarth)
  have hdivpos : (0:ℝ) < (l.topDepth : ℝ) / m.radiusOfEarth := div_pos htop' hR'
  have hdivlt : (l.topDepth : ℝ) / m.radiusOfEarth < (l.botDepth : ℝ) / m.radiusOfEarth := by
    gcongr
  exact mul_lt_mul_of_pos_left (Real.log_lt_log hdivpos hdivlt) hR'

/-- The layer `[1, 3]` with unit velocities, inside the radius-4 model. -/
def exFlatLayer : VelocityLayer :=
  { layerNumber := 0, topDepth := 1, botDepth := 3,
    topPVelocity := 1, botPVelocity := 1, topSVelocity := 1, botSVelocity := 1 }

/-- A radius-4 model with the single layer `[1, 3]`. -/
def exFlat : VelocityModel :=
  { radiusOfEarth := 4
    maxRadius := 4
    layers := [exFlatLayer] }

/-- C1 witness: the flattening theorem applied to the radius-4 model and its
layer `[1, 3]`. -/
theorem C1_earthFlatten_witness :
    exFlat.earthFlattenTransform.isSpherical = false ∧
    exFlat.earthFlattenTransform.layers.length = exFlat.layers.length ∧
    ∃ fl, exFlat.earthFlattenTransform.layers.get? 0 = some fl ∧
      fl.topDepth = (exFlat.radiusOfEarth : ℝ) *
        Real.log (exFlatLayer.topDepth / exFlat.radiusOfEarth) ∧
      fl.botDepth = (exFlat.radiusOfEarth : ℝ) *
        Real.log (exFlatLayer.botDepth / exFlat.radiusOfEarth) ∧
      fl.topPVelocity = (exFlat.radiusOfEarth : ℝ) / exFlatLayer.topDepth *
        exFlatLayer.topPVelocity ∧
      fl.botPVelocity = (exFlat.radiusOfEarth : ℝ) / exFlatLayer.botDepth *
        exFlatLayer.botPVelocity ∧
      fl.topSVelocity = (exFlat.radiusOfEarth : ℝ) / exFlatLayer.topDepth *
        exFlatLayer.topSVelocity ∧
      fl.botSVelocity = (exFlat.radiusOfEarth : ℝ) / exFlatLayer.botDepth *
        exFlatLayer.botSVelocity ∧
      fl.topDepth < fl.botDepth :=
  C1_earthFlatten exFlat 0 exFlatLayer rfl (by decide) (by decide) (by decide)

/-- C1 counterexample: on the radius-4 model with the layer `[1, 3]`, the
transform maps the layer's top depth 1 to `4·ln(1/4)`, which is negative,
whereas the claimed formula `R·ln(R/(R−d))` gives `4·ln(4/(4−1))`, which is
positive; likewise the top P velocity 1 is scaled to `4·1/1 = 4`, not to the
claimed `R/(R−d)·v = 4/3` — the code uses the stored depth as the radial
distance, not `R − d`. -/
theorem C1_counterexample :
    (exFlat.earthFlattenTransform.layers.get? 0).map FlatLayer.topDepth =
      some ((4:ℝ) * Real.log (1 / 4)) ∧
    (4:ℝ) * Real.log (1 / 4) ≠ (4:ℝ) * Real.log (4 / (4 - 1)) ∧
    (exFlat.earthFlattenTransform.layers.get? 0).map FlatLayer.topPVelocity =
      some (4:ℝ) ∧
    (4:ℝ) ≠ (4:ℝ) / (4 - 1) * 1 := by
  have h := flattenLayers_get? ((4:ℚ) : ℝ) 0 0 [exFlatLayer] (l := exFlatLayer) rfl
  have hm : exFlat.earthFlattenTransform.layers.get? 0 =
      some (flattenLayer ((4:ℚ) : ℝ) 0 exFlatLayer) := h
  refine ⟨?_, ?_, ?_, by norm_num⟩
  · rw [hm]
    simp only [Option.map_some', flattenLayer, exFlatLayer]
    norm_num
  · have h1 : Real.log ((1:ℝ) / 4) < 0 :=
      Real.log_neg (by norm_num) (by norm_num)
    have h2 : (0:ℝ) < Real.log (4 / (4 - 1)) := by
      have heq : ((4:ℝ) / (4 - 1)) = 4 / 3 := by norm_num
      rw [heq]
      exact Real.log_pos (by norm_num)
    intro heq
    linarith
  · rw [hm]
    simp only [Option.map_some', flattenLayer, exFlatLayer]
    norm_num

/-! ### Claims C7, C8: file parsing -/

/-- The five data rows of the C7 round-trip input (after the two skipped
header lines): a duplicated depth-20 row between distinct rows. -/
def c7Rows : List TVelRow :=
  [⟨0, 5.8, 3.36, []⟩, ⟨20, 6.5, 3.75, []⟩, ⟨20, 6.5, 3.75, []⟩, ⟨35, 6.5, 3.75, []⟩,
   ⟨210, 8.1, 4.5, []⟩]

/-- C7: parsing a `.tvel` input whose data rows are
`(0, 5.8, 3.36), (20, 6.5, 3.75), (20, 6.5, 3.75), (35, 6.5, 3.75),
(210, 8.1, 4.5)` yields exactly 3 layers — the duplicate-depth row is skipped
rather than kept as a zero-thickness layer — with
`radiusOfEarth = maxRadius = 210`. -/
theorem C7_tvel_roundtrip :
    ∃ m, readTVelFile_0 c7Rows "test" = .ok m ∧
      m.layers.length = 3 ∧ m.radiusOfEarth = 210 ∧ m.maxRadius = 210 ∧
      ∀ l ∈ m.layers, l.topDepth ≠ l.botDepth := by
  have h : readTVelFile_0 c7Rows "test" =
      .ok { modelName := "test"
            radiusOfEarth := 210
            mohoDepth := DEFAULT_MOHO
            cmbDepth := DEFAULT_CMB
            iocbDepth := DEFAULT_IOCB
            minRadius := 0
            maxRadius := 210
            isSpherical := true
            layers :=
              [{ layerNumber := 0, topDepth := 0, botDepth := 20,
                 topPVelocity := 5.8, botPVelocity := 6.5,
                 topSVelocity := 3.36, botSVelocity := 3.75,
                 topDensity := 5571, botDensity := 5571 },
               { layerNumber := 1, topDepth := 20, botDepth := 35,
                 topPVelocity := 6.5, botPVelocity := 6.5,
                 topSVelocity := 3.75, botSVelocity := 3.75,
                 topDensity := 5571, botDensity := 5571 },
               { layerNumber := 2, topDepth := 35, botDepth := 210,
                 topPVelocity := 6.5, botPVelocity := 8.1,
                 topSVelocity := 3.75, botSVelocity := 4.5,
                 topDensity := 5571, botDensity := 5571 }] } := by
    norm_num [c7Rows, readTVelFile_0, readTVelRowsAux, rowDensity]
  refine ⟨_, h, rfl, rfl, rfl, ?_⟩
  intro l hl
  simp only [List.mem_cons, List.not_mem_nil, or_false] at hl
  rcases hl with rfl | rfl | rfl
  · norm_num
  · norm_num
  · norm_num

theorem readTVelRowsAux_error {rows : List TVelRow} {r : TVelRow} (hr : r ∈ rows)
    (hsp : r.sVel > r.pVel) (n : Nat) (td tp ts tden : ℚ)
    (lys : List VelocityLayer) :
    ∃ e, readTVelRowsAux n td tp ts tden lys rows = .error e := by
  induction rows generalizing n td tp ts tden lys with
  | nil => simp at hr
  | cons r0 rest ih =>
    rw [readTVelRowsAux]
    by_cases h0 : r0.sVel > r0.pVel
    · rw [if_pos h0]
      exact ⟨_, rfl⟩
    · rw [if_neg h0]
      have hr' : r ∈ rest := by
        rcases List.mem_cons.mp hr with rfl | h
        · exact absurd hsp h0
        · exact h
      cases hD : rowDensity tden n r0.extras with
      | error e => exact ⟨e, rfl⟩
      | ok bd =>
        dsimp only
        split_ifs with hne
        · exact ih hr' _ _ _ _ _ _
        · exact ih hr' _ _ _ _ _ _

theorem readTVelFile_0_error {rows : List TVelRow} {r : TVelRow} (hr : r ∈ rows)
    (hsp : r.sVel > r.pVel) (modelName : String) :
    ∃ e, readTVelFile_0 rows modelName = .error e := by
  cases rows with
  | nil => simp at hr
  | cons r0 rest =>
    show ∃ e, (if r0.sVel > r0.pVel then _ else _) = Except.error e
    by_cases h0 : r0.sVel > r0.pVel
    · rw [if_pos h0]
      exact ⟨_, rfl⟩
    · rw [if_neg h0]
      have hr' : r ∈ rest := by
        rcases List.mem_cons.mp hr with rfl | h
        · exact absurd hsp h0
        · exact h
      cases hD : rowDensity 5571.0 0 r0.extras with
      | error e => exact ⟨e, rfl⟩
      | ok tden =>
        dsimp only
        obtain ⟨e, he⟩ := readTVelRowsAux_error hr' hsp 0 r0.depth r0.pVel r0.sVel tden []
        rw [he]
        exact ⟨e, rfl⟩

theorem readNDLinesAux_error {lines : List NDLine} {d p sv : ℚ} {ex : List ℚ}
    (hmem : NDLine.numbers d p sv ex ∈ lines) (hsp : sv > p) (st : NDState) :
    ∃ e, readNDLinesAux st lines = .error e := by
  induction lines generalizing st with
  | nil => simp at hmem
  | cons ln rest ih =>
    cases ln with
    | word w =>
      have hmem' : NDLine.numbers d p sv ex ∈ rest := by
        rcases List.mem_cons.mp hmem with h | h
        · exact NDLine.noConfusion h
        · exact h
      exact ih hmem' _
    | numbers d' p' s' ex' =>
      rw [readNDLinesAux]
      by_cases h0 : s' > p'
      · rw [if_pos h0]
        exact ⟨_, rfl⟩
      · rw [if_neg h0]
        have hmem' : NDLine.numbers d p sv ex ∈ rest := by
          rcases List.mem_cons.mp hmem with h | h
          · injection h with h1 h2 h3 h4
            subst h2
            subst h3
            exact absurd hsp h0
          · exact h
        cases hE : ndExtras st.botDensity st.botQp st.botQs st.myLayerNumber ex' with
        | error e => exact ⟨e, rfl⟩
        | ok triple =>
          obtain ⟨bd, bqp, bqs⟩ := triple
          dsimp only
          split_ifs with hne
          · exact ih hmem' _
          · exact ih hmem' _

theorem readNDFile_0_error {lines : List NDLine} {d p sv : ℚ} {ex : List ℚ}
    (hmem : NDLine.numbers d p sv ex ∈ lines) (hsp : sv > p) (modelName : String) :
    ∃ e, readNDFile_0 lines modelName = .error e := by
  cases lines with
  | nil => simp at hmem
  | cons ln rest =>
    cases ln with
    | word w => exact ⟨.expectedEOL 0, rfl⟩
    | numbers d' p' s' ex' =>
      show ∃ e, (if s' > p' then _ else _) = Except.error e
      by_cases h0 : s' > p'
      · rw [if_pos h0]
        exact ⟨_, rfl⟩
      · rw [if_neg h0]
        have hmem' : NDLine.numbers d p sv ex ∈ rest := by
          rcases List.mem_cons.mp hmem with h | h
          · injection h with h1 h2 h3 h4
            subst h2
            subst h3
            exact absurd hsp h0
          · exact h
        cases hE : ndExtras 2.6 1000 2000 0 ex' with
        | error e => exact ⟨e, rfl⟩
        | ok triple =>
          obtain ⟨td, tqp, tqs⟩ := triple
          dsimp only
          obtain ⟨e, he⟩ := readNDLinesAux_error hmem' hsp
            { myLayerNumber := 0, topDepth := d', topPVel := p', topSVel := s',
              topDensity := td, topQp := tqp, topQs := tqs,
              botDensity := 2.6, botQp := 1000, botQs := 2000,
              mohoDepth := DEFAULT_MOHO, cmbDepth := DEFAULT_CMB,
              iocbDepth := DEFAULT_IOCB, layers := [] }
          rw [he]
          exact ⟨e, rfl⟩

/-- C8: for both the `.tvel` and the `.nd` parser, an input containing a data
row whose S velocity strictly exceeds its P velocity is never parsed into a
model: the parse fails with a `VelocityModelException` (the spec's
malformed-model-file error) — the value is never clamped or accepted. -/
theorem C8_sVel_exceeds_pVel_error (tvelRows : List TVelRow) (ndLines : List NDLine)
    (nameT nameN : String) (r : TVelRow) (hr : r ∈ tvelRows) (hrs : r.sVel > r.pVel)
    (d p sv : ℚ) (ex : List ℚ) (hn : NDLine.numbers d p sv ex ∈ ndLines)
    (hns : sv > p) :
    (∃ e, readTVelFile_0 tvelRows nameT = .error e) ∧
    (∃ e, readNDFile_0 ndLines nameN = .error e) :=
  ⟨readTVelFile_0_error hr hrs nameT, readNDFile_0_error hn hns nameN⟩

/-- C8 witness: a `.tvel` row and a `.nd` row with S velocity 5 exceeding P
velocity 3 each make their parser fail. -/
theorem C8_sVel_exceeds_pVel_error_witness :
    (∃ e, readTVelFile_0 [⟨0, 3, 5, []⟩] "t" = .error e) ∧
    (∃ e, readNDFile_0 [NDLine.numbers 0 3 5 []] "n" = .error e) :=
  C8_sVel_exceeds_pVel_error [⟨0, 3, 5, []⟩] [NDLine.numbers 0 3 5 []] "t" "n"
    ⟨0, 3, 5, []⟩ (by decide) (by decide) 0 3 5 [] (by decide) (by decide)

end TauPy
